import Mathlib

/-!
Verification of the recipient-reason aggregation logic of
`internals/notifier.py` (chromium-dashboard notification subsystem).

The Python module is embedded shallowly:

* the recipient-reasons table (`collections.defaultdict(list)` keyed by
  email address, in insertion order) becomes an association list
  `AddrReasons = List (String × List String)`;
* datastore queries, template rendering, permission checks and the
  hard-coded enum tables living outside this repository are snapshotted
  in an explicit `Env` record of pure functions, so every embedded
  function is a pure function of its inputs and the snapshot;
* the `assert` in `convert_reasons_to_task` is modelled by returning
  `Option`: `none` is the AssertionError path;
* the `ValueError` in `post_comment_to_mailing_list` is modelled by
  `Except String`.
-/

/-- A single change record `{'prop_name': ..., 'old_val': ..., 'new_val': ...}`. -/
structure Change where
  prop_name : String
  old_val : String
  new_val : String
deriving DecidableEq, Repr

/-- Snapshot of `internals.core_models.MilestoneSet` fields used by
`apply_subscription_rules`.  ndb integer properties may be unset (`none`). -/
structure MilestoneSet where
  android_first : Option Int
  webview_first : Option Int
deriving DecidableEq, Repr

/-- Snapshot of `internals.core_models.Stage` fields used here. -/
structure Stage where
  milestones : Option MilestoneSet
  intent_thread_url : Option String
  intent_subject_line : Option String
deriving DecidableEq, Repr

/-- Snapshot of `internals.review_models.Gate` fields used here. -/
structure Gate where
  stage_id : Int
deriving DecidableEq, Repr

/-- Snapshot of a `BlinkComponent` entity: the email addresses of its
owners and subscribers (`component.owners` / `component.subscribers`). -/
structure BlinkComponent where
  owner_emails : List String
  subscriber_emails : List String
deriving DecidableEq, Repr

/-- Snapshot of the `FeatureEntry` fields read by the notifier. -/
structure FeatureEntry where
  id : Int
  name : String
  creator_email : Option String
  updater_email : Option String
  owner_emails : List String
  editor_emails : List String
  cc_emails : List String
  devrel_emails : List String
  blink_components : List String
  category : Int
  feature_type : Int
deriving DecidableEq, Repr

/-- An outbound email task dict `{to, subject, reply_to, html}` built by
`convert_reasons_to_task`. -/
structure EmailTask where
  to_addr : String
  subject : String
  reply_to : Option String
  html : String
deriving DecidableEq, Repr

/-- The email task dict built by `post_comment_to_mailing_list`
(`{to, from_user, references, subject, html}`). -/
structure CommentEmailTask where
  to_addr : String
  from_user : String
  references : Option String
  subject : String
  html : String
deriving DecidableEq, Repr

/-- Snapshot of everything `notifier.py` reads from outside the module:
datastore query results, enum tables from `core_enums`, the template
engine, the permission helper and `settings`.  Each field is a pure
function, fixing one run's external world. -/
structure Env where
  /-- Emails of `FeatureOwner` entities with `watching_all_features == True`. -/
  watcher_emails : List String
  /-- Snapshot of `BlinkComponent.get_by_name`: `none` models a missing entity. -/
  componentByName : String → Option BlinkComponent
  /-- Emails from `FeatureStar.get_feature_starrers` (already filtered to
  prefs with `notify_as_starrer` and not `bounced`). -/
  starrer_emails : List String
  /-- Snapshot of `stage_helpers.get_feature_stages(feature_id)`: feature id, then
  stage type, to the feature's stages of that type (`.get(t, [])`). -/
  feature_stages : Int → Int → List Stage
  /-- The table `core_enums.STAGE_TYPES_SHIPPING[feature_type]` (value may be `None`). -/
  stage_types_shipping : Int → Option Int
  /-- The `core_enums.IWA` category constant. -/
  iwa : Int
  /-- Result of `permissions.can_create_feature` on the recipient user. -/
  canCreateFeature : String → Bool
  /-- The `settings.SITE_URL` constant. -/
  site_url : String
  /-- Result of `format_email_body(template_path, fe, changes)`: the body HTML.
  Modelled from the spec: the function's internals call the external
  flask `render_template`, so the body is opaque here; the spec only
  uses it as "the common formatted entity-change HTML". -/
  format_email_body : String → FeatureEntry → List Change → String
  /-- Snapshot of `FeatureEntry.get_by_id`. -/
  featureById : Int → Option FeatureEntry
  /-- Snapshot of `Gate.get_by_id`. -/
  gateById : Int → Option Gate
  /-- Snapshot of `Stage.get_by_id`. -/
  stageById : Int → Option Stage
  /-- The `settings.REVIEW_COMMENT_MAILING_LIST` constant. -/
  review_comment_mailing_list : String
  /-- The external `urllib.parse.unquote`. -/
  unquote : String → String
  /-- The table `approval_defs.APPROVAL_FIELDS_BY_ID[afId].name`. -/
  approvalName : Int → String
  /-- The `core_enums.FEATURE_TYPE_DEPRECATION_ID` constant. -/
  deprecation_feature_type : Int
  /-- id of `approval_defs.PrototypeApproval`. -/
  prototype_approval_id : Int
  /-- id of `approval_defs.ExperimentApproval`. -/
  experiment_approval_id : Int
  /-- id of `approval_defs.ExtendExperimentApproval`. -/
  extend_experiment_approval_id : Int
  /-- Result of `render_template('review-comment-email.html', comment_content=...)`. -/
  render_comment : String → String

/-- The recipient-reasons table: `collections.defaultdict(list)` keyed by
email address, as an association list in dict insertion order. -/
abbrev AddrReasons := List (String × List String)

/-- Lookup in the table (`addr_reasons[a]` when present). -/
def lookupReasons : AddrReasons → String → Option (List String)
  | [], _ => none
  | (k, v) :: rest, a => if k = a then some v else lookupReasons rest a

/-- Effect of `addr_reasons[email].append(reason)` on a `defaultdict(list)`: append
to the existing entry, or create the entry `[reason]` at the end of the
dict (Python dicts preserve insertion order). -/
def appendReason : AddrReasons → String → String → AddrReasons
  | [], a, r => [(a, [r])]
  | (k, v) :: rest, a, r =>
      if k = a then (k, v ++ [r]) :: rest else (k, v) :: appendReason rest a r

/-- Embeds `accumulate_reasons(addr_reasons, addr_list, reason)`:
"Add a reason string for each user." -/
def accumulate_reasons (addr_reasons : AddrReasons) (addr_list : List String)
    (reason : String) : AddrReasons :=
  addr_list.foldl (fun t email => appendReason t email reason) addr_reasons

/-- Python truthiness of an optional ndb integer property:
`None` and `0` are falsy. -/
def truthy : Option Int → Bool
  | none => false
  | some n => n != 0

/-- Embeds `sorted(set(reasons))`: the distinct reasons in ascending order. -/
def sortedSet (reasons : List String) : List String :=
  List.insertionSort (· ≤ ·) reasons.dedup

/-- The footer lines built inside `convert_reasons_to_task`. -/
def footerLines (env : Env) (reasons : List String) : List String :=
  ["<p>You are receiving this email because:</p>", "<ul>"]
    ++ (sortedSet reasons).map (fun reason => "<li>" ++ reason ++ "</li>")
    ++ ["</ul>",
        "<p><a href=\"" ++ env.site_url ++ "settings\">Unsubscribe</a></p>"]

/-- The task record built on the non-assert path of
`convert_reasons_to_task`. -/
def mkTask (env : Env) (addr : String) (reasons : List String)
    (email_html subject : String) (triggering_user_email : Option String) :
    EmailTask :=
  { to_addr := addr
    subject := subject
    reply_to :=
      if env.canCreateFeature addr then triggering_user_email else none
    html := email_html ++ "\n\n" ++ String.intercalate "\n"
              (footerLines env reasons) }

/-- Embeds `convert_reasons_to_task(addr, reasons, email_html, subject,
triggering_user_email)`.  `none` is the failing
`assert reasons, 'We are emailing someone without any reason'`. -/
def convert_reasons_to_task (env : Env) (addr : String)
    (reasons : List String) (email_html subject : String)
    (triggering_user_email : Option String) : Option EmailTask :=
  if reasons.isEmpty then none
  else some (mkTask env addr reasons email_html subject triggering_user_email)

def WEBVIEW_RULE_REASON : String :=
  "This feature has an android milestone, but not a webview milestone"

def WEBVIEW_RULE_ADDRS : List String := ["webview-leads-external@google.com"]

def IWA_RULE_REASON : String := "You are subscribed to all IWA features"

def IWA_RULE_ADDRS : List String := ["iwa-dev@chromium.org"]

/-- Embeds `apply_subscription_rules(fe, changes)`: the `{reason: [addrs]}` dict
in insertion order (IWA rule first, then the webview rule). -/
def apply_subscription_rules (env : Env) (fe : FeatureEntry)
    (changes : List Change) : List (String × List String) :=
  let results1 :=
    if fe.category = env.iwa then [(IWA_RULE_REASON, IWA_RULE_ADDRS)] else []
  let stage_type := (env.stage_types_shipping fe.feature_type).getD 0
  let ship_stages := env.feature_stages fe.id stage_type
  let ship_milestones : Option MilestoneSet :=
    match ship_stages with
    | [] => none
    | s :: _ => s.milestones
  let results2 :=
    match ship_milestones with
    | none => []
    | some ms =>
        if truthy ms.android_first && !truthy ms.webview_first then
          if changes.any (fun c => c.prop_name = "shipped_android_milestone")
          then [(WEBVIEW_RULE_REASON, WEBVIEW_RULE_ADDRS)]
          else []
        else []
  results1 ++ results2

/-- Embeds `add_core_receivers(fe, addr_reasons)`: owners, editors, CC,
devrel, in that order. -/
def add_core_receivers (fe : FeatureEntry) (addr_reasons : AddrReasons) :
    AddrReasons :=
  accumulate_reasons
    (accumulate_reasons
      (accumulate_reasons
        (accumulate_reasons addr_reasons fe.owner_emails
          "You are listed as an owner of this feature")
        fe.editor_emails "You are listed as an editor of this feature")
      fe.cc_emails "You are CC\x27d on this feature")
    fe.devrel_emails "You are a devrel contact for this feature."

/-- One step of the `for component_name in fe.blink_components` loop in
`make_feature_changes_email`: a missing component is skipped (after a
logged warning), otherwise its owners then subscribers accumulate. -/
def componentStep (env : Env) (t : AddrReasons) (component_name : String) :
    AddrReasons :=
  match env.componentByName component_name with
  | none => t
  | some component =>
      accumulate_reasons
        (accumulate_reasons t component.owner_emails
          "You are an owner of this feature\x27s component")
        component.subscriber_emails
        "You subscribe to this feature\x27s component"

/-- The `addr_reasons` table as it stands when `make_feature_changes_email`
reaches the final `sorted(addr_reasons.items())` comprehension. -/
def feature_changes_addr_reasons (env : Env) (fe : FeatureEntry)
    (changes : List Change) : AddrReasons :=
  let t1 := add_core_receivers fe []
  let t2 := accumulate_reasons t1 env.watcher_emails
              "You are watching all feature changes"
  let t3 := fe.blink_components.foldl (componentStep env) t2
  let t4 := accumulate_reasons t3 env.starrer_emails "You starred this feature"
  (apply_subscription_rules env fe changes).foldl
    (fun t p => accumulate_reasons t p.2 p.1) t4

/-- Comparison used by Python's `sorted(addr_reasons.items())`: the pairs
compare by address first; the table's keys are distinct, so the address
alone decides. -/
def pairLe (p q : String × List String) : Prop := p.1 ≤ q.1

instance : DecidableRel pairLe := fun p q =>
  inferInstanceAs (Decidable (p.1 ≤ q.1))

instance : IsTotal (String × List String) pairLe :=
  ⟨fun a b => le_total a.1 b.1⟩

instance : IsTrans (String × List String) pairLe :=
  ⟨fun _ _ _ h1 h2 => le_trans h1 h2⟩

/-- Embeds `sorted(addr_reasons.items())`. -/
def sortByAddr (t : AddrReasons) : AddrReasons :=
  List.insertionSort pairLe t

/-- Embeds `make_feature_changes_email(fe, is_update, changes)` (with the
caller's `changes or []` already applied).  `none` propagates a failing
assert from `convert_reasons_to_task`. -/
def make_feature_changes_email (env : Env) (fe : FeatureEntry)
    (is_update : Bool) (changes : List Change) : Option (List EmailTask) :=
  let subject :=
    if is_update then "updated feature: " ++ fe.name
    else "new feature: " ++ fe.name
  let triggering_user_email :=
    if is_update then fe.updater_email else fe.creator_email
  let template_path :=
    if is_update then "update-feature-email.html"
    else "new-feature-email.html"
  let email_html := env.format_email_body template_path fe changes
  (sortByAddr (feature_changes_addr_reasons env fe changes)).mapM
    (fun p => convert_reasons_to_task env p.1 p.2 email_html subject
                triggering_user_email)

/-- Embeds `FeatureChangeHandler.process_post_data` after parameter parsing:
`feature_id` is `feature['id']`, `changes_param` is the raw optional
`changes` param (`None`-or-list, then `or []`).  Result: `none` models a
propagated AssertionError, `some none` means `send_emails` was never
called, `some (some tasks)` means `send_emails(tasks)` ran. -/
def process_post_data (env : Env) (feature_id : Int) (is_update : Bool)
    (changes_param : Option (List Change)) :
    Option (Option (List EmailTask)) :=
  let changes := changes_param.getD []
  match env.featureById feature_id with
  | none => some none
  | some fe =>
      if (is_update && !changes.isEmpty) || !is_update then
        (make_feature_changes_email env fe is_update changes).map some
      else some none

def BLINK_DEV_ARCHIVE_URL_START : String :=
  "https://groups.google.com/a/chromium.org/d/msgid/blink-dev/"

def TEST_ARCHIVE_URL_START : String :=
  "https://groups.google.com/d/msgid/jrobbins-test/"

/-- Python `s.split(c)[0]`: the part before the first occurrence of `c`. -/
def splitHead (c : Char) (s : String) : String :=
  String.mk (s.toList.takeWhile (· ≠ c))

/-- Embeds `generate_thread_subject(feature, approval_field)`, with the approval
field passed by id and its `.name` looked up in the snapshot.  The three
sequential `if`s are re-checked in reverse so the last Python match wins. -/
def generate_thread_subject (env : Env) (feature : FeatureEntry)
    (afId : Int) : String :=
  let intent_phrase :=
    if feature.feature_type = env.deprecation_feature_type then
      if afId = env.extend_experiment_approval_id then
        "Intent to Extend Deprecation Trial"
      else if afId = env.experiment_approval_id then
        "Request for Deprecation Trial"
      else if afId = env.prototype_approval_id then
        "Intent to Deprecate and Remove"
      else env.approvalName afId
    else env.approvalName afId
  intent_phrase ++ ": " ++ feature.name

/-- Embeds `get_thread_id(stage)`. -/
def get_thread_id (env : Env) (stage : Stage) : Option String :=
  match stage.intent_thread_url with
  | none => none
  | some url =>
      let u1 := splitHead '#' url
      let u2 := splitHead '?' u1
      let thread_url := env.unquote u2
      let tid1 : Option String :=
        if BLINK_DEV_ARCHIVE_URL_START.isPrefixOf thread_url then
          some (thread_url.drop BLINK_DEV_ARCHIVE_URL_START.length)
        else none
      if TEST_ARCHIVE_URL_START.isPrefixOf thread_url then
        some (thread_url.drop TEST_ARCHIVE_URL_START.length)
      else tid1

/-- Embeds `post_comment_to_mailing_list(feature, gate_id, approval_field_id,
author_addr, comment_content)`: either the email task handed to
`send_emails`, or the raised `ValueError` message. -/
def post_comment_to_mailing_list (env : Env) (feature : FeatureEntry)
    (gate_id : Int) (approval_field_id : Int) (author_addr : String)
    (comment_content : String) : Except String CommentEmailTask :=
  let to_addr := env.review_comment_mailing_list
  let from_user := splitHead '@' author_addr
  let gate := env.gateById gate_id
  let stage : Option Stage :=
    match gate with
    | none => none
    | some g => env.stageById g.stage_id
  match stage with
  | none => Except.error "No matching Stage entity found for given Gate ID."
  | some st =>
      let subject1 :=
        (st.intent_subject_line).getD
          (generate_thread_subject env feature approval_field_id)
      let subject :=
        if subject1.startsWith "Re: " then subject1 else "Re: " ++ subject1
      let thread_id := get_thread_id env st
      let references := thread_id.map (fun t => "<" ++ t ++ ">")
      let html := env.render_comment comment_content
      Except.ok
        { to_addr := to_addr
          from_user := from_user
          references := references
          subject := subject
          html := html }

/-- An arbitrary reason-accumulation sequence: a list of
`(addr_list, reason)` pairs applied to an initially empty table, the way
every `make_*_email` function in the module builds its table. -/
def runAccumulations (seqs : List (List String × String)) : AddrReasons :=
  seqs.foldl (fun t p => accumulate_reasons t p.1 p.2) []

/-- All reasons a given address receives from an accumulation sequence:
the concatenation, category by category, of one copy of the reason per
occurrence of the address in that category's address list. -/
def contribsFor (addr : String) (seqs : List (List String × String)) :
    List String :=
  seqs.flatMap (fun p => List.replicate (p.1.count addr) p.2)

/-- The accumulation sequence that `make_feature_changes_email` applies,
category by category, in program order. -/
def categoryContribs (env : Env) (fe : FeatureEntry)
    (changes : List Change) : List (List String × String) :=
  [(fe.owner_emails, "You are listed as an owner of this feature"),
   (fe.editor_emails, "You are listed as an editor of this feature"),
   (fe.cc_emails, "You are CC\x27d on this feature"),
   (fe.devrel_emails, "You are a devrel contact for this feature."),
   (env.watcher_emails, "You are watching all feature changes")]
  ++ fe.blink_components.flatMap (fun component_name =>
       match env.componentByName component_name with
       | none => []
       | some component =>
           [(component.owner_emails,
             "You are an owner of this feature\x27s component"),
            (component.subscriber_emails,
             "You subscribe to this feature\x27s component")])
  ++ [(env.starrer_emails, "You starred this feature")]
  ++ (apply_subscription_rules env fe changes).map (fun p => (p.2, p.1))

/-! ### Basic lemmas about the reasons table -/

theorem lookup_appendReason (t : AddrReasons) (a r b : String) :
    lookupReasons (appendReason t a r) b =
      if b = a then some ((lookupReasons t a).getD [] ++ [r])
      else lookupReasons t b := by
  induction t with
  | nil =>
      simp only [appendReason, lookupReasons]
      by_cases h : b = a
      · subst h; simp [lookupReasons]
      · have h2 : ¬ a = b := fun e => h e.symm
        simp [lookupReasons, h, h2]
  | cons p rest ih =>
      obtain ⟨k, v⟩ := p
      by_cases hka : k = a
      · subst hka
        simp only [appendReason, if_pos rfl, lookupReasons]
        by_cases hbk : k = b
        · subst hbk; simp [lookupReasons]
        · have hbk2 : ¬ b = k := fun e => hbk e.symm
          simp [lookupReasons, hbk, hbk2]
      · by_cases hba : b = a
        · subst hba
          have hkb : ¬ k = b := hka
          simp [appendReason, hka, lookupReasons, hkb, ih]
        · by_cases hkb : k = b
          · simp [appendReason, hka, lookupReasons, hkb, ih, hba]
          · simp [appendReason, hka, lookupReasons, hkb, ih, hba]

theorem lookup_accumulate (l : List String) (t : AddrReasons) (r b : String) :
    lookupReasons (accumulate_reasons t l r) b =
      if b ∈ l then
        some ((lookupReasons t b).getD [] ++ List.replicate (l.count b) r)
      else lookupReasons t b := by
  induction l generalizing t with
  | nil => simp [accumulate_reasons]
  | cons a l ih =>
      have step : accumulate_reasons t (a :: l) r =
          accumulate_reasons (appendReason t a r) l r := by
        simp [accumulate_reasons, List.foldl_cons]
      rw [step, ih]
      by_cases hba : b = a
      · subst hba
        have hcount : (b :: l).count b = l.count b + 1 := by
          simp [List.count_cons]
        have hl : lookupReasons (appendReason t b r) b =
            some ((lookupReasons t b).getD [] ++ [r]) := by
          rw [lookup_appendReason]; simp
        have hrep : r :: List.replicate (l.count b) r =
            List.replicate (l.count b) r ++ [r] := by
          rw [← List.replicate_succ, ← List.replicate_succ']
        by_cases hbl : b ∈ l
        · simp only [if_pos hbl, hl, Option.getD_some,
            if_pos (List.mem_cons_self b l), hcount, List.replicate_succ]
          rw [List.append_assoc, List.singleton_append, hrep]
        · have hc0 : l.count b = 0 := List.count_eq_zero.mpr hbl
          simp [hbl, hl, hc0, hcount, List.replicate_succ]
      · have hl : lookupReasons (appendReason t a r) b = lookupReasons t b := by
          rw [lookup_appendReason]; simp [hba]
        have hmem : (b ∈ a :: l) ↔ b ∈ l := by
          simp [List.mem_cons, hba]
        have hcount : (a :: l).count b = l.count b := by
          simp [List.count_cons, hba]
        simp [hl, hmem, hcount]

theorem lookup_none_iff (t : AddrReasons) (b : String) :
    lookupReasons t b = none ↔ b ∉ t.map Prod.fst := by
  induction t with
  | nil => simp [lookupReasons]
  | cons p rest ih =>
      obtain ⟨k, v⟩ := p
      by_cases hkb : k = b
      · subst hkb; simp [lookupReasons]
      · have : ¬ b = k := fun e => hkb e.symm
        simp [lookupReasons, hkb, this, ih]

theorem keys_appendReason (t : AddrReasons) (a r : String) :
    (appendReason t a r).map Prod.fst =
      if a ∈ t.map Prod.fst then t.map Prod.fst
      else t.map Prod.fst ++ [a] := by
  induction t with
  | nil => simp [appendReason]
  | cons p rest ih =>
      obtain ⟨k, v⟩ := p
      by_cases hka : k = a
      · subst hka; simp [appendReason]
      · have : ¬ a = k := fun e => hka e.symm
        simp only [appendReason, if_neg hka, List.map_cons, List.mem_cons, this,
          false_or, ih]
        by_cases hmem : a ∈ rest.map Prod.fst <;> simp [hmem]

theorem nodup_keys_appendReason (t : AddrReasons) (a r : String)
    (h : (t.map Prod.fst).Nodup) :
    ((appendReason t a r).map Prod.fst).Nodup := by
  rw [keys_appendReason]
  by_cases hmem : a ∈ t.map Prod.fst
  · simpa [hmem]
  · simp [hmem, List.nodup_append, h]

theorem nonempty_values_appendReason (t : AddrReasons) (a r : String)
    (h : ∀ p ∈ t, p.2 ≠ []) :
    ∀ p ∈ appendReason t a r, p.2 ≠ [] := by
  induction t with
  | nil =>
      intro p hp
      simp only [appendReason, List.mem_singleton] at hp
      subst hp
      simp
  | cons q rest ih =>
      obtain ⟨k, v⟩ := q
      intro p hp
      by_cases hka : k = a
      · rw [appendReason, if_pos hka] at hp
        rcases List.mem_cons.mp hp with h1 | h1
        · subst h1; simp
        · exact h p (List.mem_cons_of_mem _ h1)
      · rw [appendReason, if_neg hka] at hp
        rcases List.mem_cons.mp hp with h1 | h1
        · subst h1; exact h _ (List.mem_cons_self _ _)
        · exact ih (fun q hq => h q (List.mem_cons_of_mem _ hq)) p h1

theorem nodup_keys_accumulate (l : List String) (t : AddrReasons) (r : String)
    (h : (t.map Prod.fst).Nodup) :
    ((accumulate_reasons t l r).map Prod.fst).Nodup := by
  induction l generalizing t with
  | nil => simpa [accumulate_reasons]
  | cons a l ih =>
      have step : accumulate_reasons t (a :: l) r =
          accumulate_reasons (appendReason t a r) l r := by
        simp [accumulate_reasons, List.foldl_cons]
      rw [step]
      exact ih _ (nodup_keys_appendReason t a r h)

theorem nonempty_values_accumulate (l : List String) (t : AddrReasons)
    (r : String) (h : ∀ p ∈ t, p.2 ≠ []) :
    ∀ p ∈ accumulate_reasons t l r, p.2 ≠ [] := by
  induction l generalizing t with
  | nil => exact fun p hp => h p hp
  | cons a l ih =>
      have step : accumulate_reasons t (a :: l) r =
          accumulate_reasons (appendReason t a r) l r := by
        simp [accumulate_reasons, List.foldl_cons]
      rw [step]
      exact ih _ (nonempty_values_appendReason t a r h)

/-! ### Accumulation sequences -/

/-- One accumulation step, as folded over a `(addr_list, reason)` sequence. -/
def accStep (t : AddrReasons) (p : List String × String) : AddrReasons :=
  accumulate_reasons t p.1 p.2

theorem lookup_foldl_accStep (seqs : List (List String × String))
    (t : AddrReasons) (b : String) :
    lookupReasons (seqs.foldl accStep t) b =
      if lookupReasons t b = none ∧ contribsFor b seqs = [] then none
      else some ((lookupReasons t b).getD [] ++ contribsFor b seqs) := by
  induction seqs generalizing t with
  | nil =>
      simp only [List.foldl_nil, contribsFor, List.flatMap_nil]
      cases h : lookupReasons t b <;> simp [h]
  | cons p seqs ih =>
      obtain ⟨l, r⟩ := p
      have hcontribs : contribsFor b ((l, r) :: seqs) =
          List.replicate (l.count b) r ++ contribsFor b seqs := by
        simp [contribsFor]
      rw [List.foldl_cons, ih]
      have hstep : lookupReasons (accStep t (l, r)) b =
          if b ∈ l then
            some ((lookupReasons t b).getD [] ++ List.replicate (l.count b) r)
          else lookupReasons t b := lookup_accumulate l t r b
      by_cases hbl : b ∈ l
      · have hcpos : 0 < l.count b := List.count_pos_iff.mpr hbl
        have hrep : List.replicate (l.count b) r ≠ [] := by
          cases hc : l.count b with
          | zero => omega
          | succ n => simp [List.replicate]
        have hne : ¬ (lookupReasons t b = none ∧
            contribsFor b ((l, r) :: seqs) = []) := by
          rintro ⟨-, h2⟩
          rw [hcontribs] at h2
          exact hrep (List.append_eq_nil.mp h2).1
        rw [if_neg hne, hstep, if_pos hbl]
        simp [hcontribs, List.append_assoc]
      · have hc0 : l.count b = 0 := List.count_eq_zero.mpr hbl
        rw [hstep, if_neg hbl, hcontribs, hc0]
        simp

theorem lookup_runAccumulations (seqs : List (List String × String))
    (b : String) :
    lookupReasons (runAccumulations seqs) b =
      if contribsFor b seqs = [] then none else some (contribsFor b seqs) := by
  have h := lookup_foldl_accStep seqs [] b
  have h0 : lookupReasons [] b = none := rfl
  rw [runAccumulations]
  have hfold : seqs.foldl (fun t p => accumulate_reasons t p.1 p.2) [] =
      seqs.foldl accStep [] := rfl
  rw [hfold, h, h0]
  by_cases hc : contribsFor b seqs = [] <;> simp [hc]

theorem nodup_keys_foldl_accStep (seqs : List (List String × String))
    (t : AddrReasons) (h : (t.map Prod.fst).Nodup) :
    ((seqs.foldl accStep t).map Prod.fst).Nodup := by
  induction seqs generalizing t with
  | nil => exact h
  | cons p seqs ih =>
      exact ih _ (nodup_keys_accumulate p.1 t p.2 h)

theorem nonempty_values_foldl_accStep (seqs : List (List String × String))
    (t : AddrReasons) (h : ∀ p ∈ t, p.2 ≠ []) :
    ∀ p ∈ seqs.foldl accStep t, p.2 ≠ [] := by
  induction seqs generalizing t with
  | nil => exact h
  | cons p seqs ih =>
      exact ih _ (nonempty_values_accumulate p.1 t p.2 h)

/-! ### The table built by `make_feature_changes_email` -/

theorem componentFold_eq (env : Env) (names : List String) (t : AddrReasons) :
    names.foldl (componentStep env) t =
      (names.flatMap (fun component_name =>
        match env.componentByName component_name with
        | none => []
        | some component =>
            [(component.owner_emails,
              "You are an owner of this feature\x27s component"),
             (component.subscriber_emails,
              "You subscribe to this feature\x27s component")])).foldl accStep t := by
  induction names generalizing t with
  | nil => rfl
  | cons n names ih =>
      rw [List.foldl_cons, List.flatMap_cons, List.foldl_append, ih]
      cases h : env.componentByName n <;>
        simp [componentStep, h, accStep]

theorem feature_changes_table_eq (env : Env) (fe : FeatureEntry)
    (changes : List Change) :
    feature_changes_addr_reasons env fe changes =
      (categoryContribs env fe changes).foldl accStep [] := by
  rw [categoryContribs]
  rw [List.foldl_append, List.foldl_append, List.foldl_append]
  rw [← componentFold_eq, List.foldl_map]
  rfl

/-! ### Sorting the items and building the tasks -/

theorem sortByAddr_perm (t : AddrReasons) : List.Perm (sortByAddr t) t :=
  List.perm_insertionSort pairLe t

theorem sortByAddr_mem (t : AddrReasons) (p : String × List String) :
    p ∈ sortByAddr t ↔ p ∈ t :=
  (sortByAddr_perm t).mem_iff

theorem sortByAddr_sorted (t : AddrReasons) :
    (sortByAddr t).Sorted pairLe :=
  List.sorted_insertionSort pairLe t

theorem sortByAddr_keys_lt (t : AddrReasons)
    (h : (t.map Prod.fst).Nodup) :
    ((sortByAddr t).map Prod.fst).Pairwise (· < ·) := by
  have hperm : List.Perm ((sortByAddr t).map Prod.fst) (t.map Prod.fst) :=
    (sortByAddr_perm t).map Prod.fst
  have hnodup : ((sortByAddr t).map Prod.fst).Nodup := hperm.nodup_iff.mpr h
  have hne : (sortByAddr t).Pairwise (fun p q => p.1 ≠ q.1) :=
    (List.pairwise_map).mp hnodup
  have hle : (sortByAddr t).Pairwise pairLe := sortByAddr_sorted t
  have hlt : (sortByAddr t).Pairwise (fun p q => p.1 < q.1) :=
    (hle.and hne).imp (fun h => lt_of_le_of_ne h.1 h.2)
  exact (List.pairwise_map).mpr hlt

theorem mapM_convert (env : Env) (l : AddrReasons) (h s : String)
    (tr : Option String) (hne : ∀ p ∈ l, p.2 ≠ []) :
    l.mapM (fun p => convert_reasons_to_task env p.1 p.2 h s tr) =
      some (l.map (fun p => mkTask env p.1 p.2 h s tr)) := by
  induction l with
  | nil => rfl
  | cons p l ih =>
      have hp : p.2 ≠ [] := hne p (List.mem_cons_self _ _)
      have hconv : convert_reasons_to_task env p.1 p.2 h s tr =
          some (mkTask env p.1 p.2 h s tr) := by
        rw [convert_reasons_to_task, if_neg]
        simp [List.isEmpty_iff, hp]
      rw [List.mapM_cons, hconv, ih (fun q hq => hne q (List.mem_cons_of_mem _ hq))]
      rfl

/-- The subject `make_feature_changes_email` uses. -/
def feature_changes_subject (fe : FeatureEntry) (is_update : Bool) : String :=
  if is_update then "updated feature: " ++ fe.name
  else "new feature: " ++ fe.name

/-- The triggering user `make_feature_changes_email` uses. -/
def feature_changes_trigger (fe : FeatureEntry) (is_update : Bool) :
    Option String :=
  if is_update then fe.updater_email else fe.creator_email

/-- The body HTML `make_feature_changes_email` uses. -/
def feature_changes_html (env : Env) (fe : FeatureEntry) (is_update : Bool)
    (changes : List Change) : String :=
  env.format_email_body
    (if is_update then "update-feature-email.html"
     else "new-feature-email.html") fe changes

theorem feature_table_values_ne_nil (env : Env) (fe : FeatureEntry)
    (changes : List Change) :
    ∀ p ∈ feature_changes_addr_reasons env fe changes, p.2 ≠ [] := by
  rw [feature_changes_table_eq]
  exact nonempty_values_foldl_accStep _ [] (by simp)

theorem feature_table_keys_nodup (env : Env) (fe : FeatureEntry)
    (changes : List Change) :
    ((feature_changes_addr_reasons env fe changes).map Prod.fst).Nodup := by
  rw [feature_changes_table_eq]
  exact nodup_keys_foldl_accStep _ [] (by simp)

theorem lookup_feature_changes (env : Env) (fe : FeatureEntry)
    (changes : List Change) (b : String) :
    lookupReasons (feature_changes_addr_reasons env fe changes) b =
      if contribsFor b (categoryContribs env fe changes) = [] then none
      else some (contribsFor b (categoryContribs env fe changes)) := by
  rw [feature_changes_table_eq]
  have h := lookup_foldl_accStep (categoryContribs env fe changes) [] b
  have h0 : lookupReasons [] b = none := rfl
  rw [h, h0]
  by_cases hc : contribsFor b (categoryContribs env fe changes) = [] <;>
    simp [hc]

theorem make_feature_changes_email_eq (env : Env) (fe : FeatureEntry)
    (is_update : Bool) (changes : List Change) :
    make_feature_changes_email env fe is_update changes =
      some ((sortByAddr (feature_changes_addr_reasons env fe changes)).map
        (fun p => mkTask env p.1 p.2
          (feature_changes_html env fe is_update changes)
          (feature_changes_subject fe is_update)
          (feature_changes_trigger fe is_update))) := by
  rw [make_feature_changes_email]
  exact mapM_convert env _ _ _ _
    (fun p hp => feature_table_values_ne_nil env fe changes p
      ((sortByAddr_mem _ p).mp hp))

theorem make_tasks_to_addr (env : Env) (fe : FeatureEntry)
    (is_update : Bool) (changes : List Change) :
    ∃ tasks, make_feature_changes_email env fe is_update changes = some tasks ∧
      tasks.map EmailTask.to_addr =
        (sortByAddr (feature_changes_addr_reasons env fe changes)).map
          Prod.fst := by
  refine ⟨_, make_feature_changes_email_eq env fe is_update changes, ?_⟩
  rw [List.map_map]
  rfl

/-! ### Further supporting lemmas -/

theorem lookup_append (t1 t2 : AddrReasons) (b : String) :
    lookupReasons (t1 ++ t2) b =
      match lookupReasons t1 b with
      | some v => some v
      | none => lookupReasons t2 b := by
  induction t1 with
  | nil => simp [lookupReasons]
  | cons p rest ih =>
      obtain ⟨k, v⟩ := p
      by_cases hkb : k = b <;> simp [lookupReasons, hkb, ih]

theorem sortedSet_sorted (reasons : List String) :
    (sortedSet reasons).Sorted (· ≤ ·) :=
  List.sorted_insertionSort _ reasons.dedup

theorem sortedSet_nodup (reasons : List String) :
    (sortedSet reasons).Nodup :=
  (List.perm_insertionSort _ reasons.dedup).nodup_iff.mpr
    (List.nodup_dedup reasons)

theorem sortedSet_mem (reasons : List String) (r : String) :
    r ∈ sortedSet reasons ↔ r ∈ reasons := by
  rw [sortedSet, List.mem_insertionSort, List.mem_dedup]

theorem sortedSet_congr (reasons1 reasons2 : List String)
    (h : ∀ r, r ∈ reasons1 ↔ r ∈ reasons2) :
    sortedSet reasons1 = sortedSet reasons2 := by
  have hperm : List.Perm reasons1.dedup reasons2.dedup :=
    (List.perm_ext_iff_of_nodup (List.nodup_dedup _) (List.nodup_dedup _)).mpr
      (fun a => by rw [List.mem_dedup, List.mem_dedup]; exact h a)
  have h1 : List.Perm (sortedSet reasons1) (sortedSet reasons2) :=
    ((List.perm_insertionSort _ reasons1.dedup).trans hperm).trans
      (List.perm_insertionSort _ reasons2.dedup).symm
  exact List.eq_of_perm_of_sorted h1 (sortedSet_sorted reasons1)
    (sortedSet_sorted reasons2)

theorem componentFold_filter (env : Env) (name : String)
    (hmiss : env.componentByName name = none) (names : List String)
    (t : AddrReasons) :
    names.foldl (componentStep env) t =
      (names.filter (fun n => n ≠ name)).foldl (componentStep env) t := by
  induction names generalizing t with
  | nil => rfl
  | cons n names ih =>
      by_cases hn : n = name
      · subst hn
        have hskip : componentStep env t n = t := by
          rw [componentStep, hmiss]
        have hfilter : (n :: names).filter (fun m => m ≠ n) =
            names.filter (fun m => m ≠ n) := by
          simp [List.filter_cons]
        rw [List.foldl_cons, hskip, hfilter, ih]
      · have hfilter : (n :: names).filter (fun m => m ≠ name) =
            n :: names.filter (fun m => m ≠ name) := by
          simp [List.filter_cons, hn]
        rw [List.foldl_cons, hfilter, List.foldl_cons, ih]

/-! ### A concrete environment and feature used to instantiate theorems -/

/-- A concrete feature entry: IWA category, one present and one missing
Blink component. -/
def feW : FeatureEntry :=
  { id := 1
    name := "Sample feature"
    creator_email := some "creator@example.com"
    updater_email := some "updater@example.com"
    owner_emails := ["owner@example.com"]
    editor_emails := ["editor@example.com"]
    cc_emails := []
    devrel_emails := []
    blink_components := ["Blink", "Gone"]
    category := 9
    feature_type := 0 }

/-- A concrete external-world snapshot: one Blink component, one watcher,
one starrer, one shipping stage with an android milestone and no webview
milestone, a feature stored under id 1, and no gates or stages by id. -/
def envW : Env :=
  { watcher_emails := ["watcher@example.com"]
    componentByName := fun n =>
      if n = "Blink" then some ⟨["compowner@example.com"], ["compsub@example.com"]⟩
      else none
    starrer_emails := ["starrer@example.com"]
    feature_stages := fun _ _ => [⟨some ⟨some 100, none⟩, none, none⟩]
    stage_types_shipping := fun _ => some 160
    iwa := 9
    canCreateFeature := fun a => a = "owner@example.com"
    site_url := "https://chromestatus.example/"
    format_email_body := fun tp _ _ => "BODY:" ++ tp
    featureById := fun i => if i = 1 then some feW else none
    gateById := fun _ => none
    stageById := fun _ => none
    review_comment_mailing_list := "blink-dev@chromium.org"
    unquote := fun s => s
    approvalName := fun _ => "Intent to Ship"
    deprecation_feature_type := 3
    prototype_approval_id := 1
    experiment_approval_id := 2
    extend_experiment_approval_id := 3
    render_comment := fun c => "CMT:" ++ c }


/-! ### The claims -/

/-- C1: every table built by a sequence of `accumulate_reasons` calls on
an initially empty table maps each recipient to a non-empty reason list,
so `convert_reasons_to_task`'s assert
(`'We are emailing someone without any reason'`) never fires on such a
recipient, and `make_feature_changes_email` never propagates a failing
assert: a recipient with zero reasons is never emitted as a task. -/
theorem C1_no_zero_reason_recipients :
    (∀ (seqs : List (List String × String)) (p : String × List String),
      p ∈ runAccumulations seqs →
        p.2 ≠ [] ∧
        ∀ (env : Env) (email_html subject : String) (tr : Option String),
          (convert_reasons_to_task env p.1 p.2 email_html subject tr).isSome) ∧
    ∀ (env : Env) (fe : FeatureEntry) (is_update : Bool)
      (changes : List Change),
      (make_feature_changes_email env fe is_update changes).isSome := by
  constructor
  · intro seqs p hp
    have hfold : runAccumulations seqs = seqs.foldl accStep [] := rfl
    rw [hfold] at hp
    have hne : p.2 ≠ [] :=
      nonempty_values_foldl_accStep seqs [] (by simp) p hp
    refine ⟨hne, fun env email_html subject tr => ?_⟩
    rw [convert_reasons_to_task, if_neg]
    · rfl
    · simp [List.isEmpty_iff, hne]
  · intro env fe is_update changes
    rw [make_feature_changes_email_eq]
    rfl

theorem C1_no_zero_reason_recipients_witness :
    (("a@example.com", ["some reason"]) : String × List String).2 ≠ [] ∧
      (convert_reasons_to_task envW "a@example.com" ["some reason"] "H" "S"
        none).isSome := by
  have h := C1_no_zero_reason_recipients.1 [(["a@example.com"], "some reason")]
    ("a@example.com", ["some reason"]) (by decide)
  exact ⟨h.1, h.2 envW "H" "S" none⟩

/-- C2: `accumulate_reasons table addresses reason` appends `reason` to
`table[addr]` once per occurrence of `addr` in `addresses`, creating the
entry (initialized to `[reason]`, and generally to the replicated
reasons) when `addr` was absent (`getD []`), and leaves every address
not in the list unchanged. -/
theorem C2_accumulate_reasons_spec (table : AddrReasons)
    (addresses : List String) (reason addr : String) :
    lookupReasons (accumulate_reasons table addresses reason) addr =
      if addr ∈ addresses then
        some ((lookupReasons table addr).getD [] ++
          List.replicate (addresses.count addr) reason)
      else lookupReasons table addr :=
  lookup_accumulate addresses table reason addr

/-- C3: for a non-empty reason list, `convert_reasons_to_task` succeeds
and appends a footer listing exactly the distinct reasons, deduplicated
and sorted alphabetically, one `<li>` per unique reason, followed by the
unsubscribe link; any reason list with the same members (regardless of
order and multiplicity) yields the identical task. -/
theorem C3_footer_dedup_sorted (env : Env) (addr : String)
    (reasons : List String) (email_html subject : String)
    (tr : Option String) (hne : reasons ≠ []) :
    ∃ task,
      convert_reasons_to_task env addr reasons email_html subject tr =
        some task ∧
      task.html = email_html ++ "\n\n" ++ String.intercalate "\n"
        (["<p>You are receiving this email because:</p>", "<ul>"]
          ++ (sortedSet reasons).map (fun r => "<li>" ++ r ++ "</li>")
          ++ ["</ul>",
              "<p><a href=\"" ++ env.site_url ++
                "settings\">Unsubscribe</a></p>"]) ∧
      (sortedSet reasons).Sorted (· ≤ ·) ∧
      (sortedSet reasons).Nodup ∧
      (∀ r, r ∈ sortedSet reasons ↔ r ∈ reasons) ∧
      ∀ reasons2, (∀ r, r ∈ reasons2 ↔ r ∈ reasons) →
        convert_reasons_to_task env addr reasons2 email_html subject tr =
          some task := by
  have hconv : convert_reasons_to_task env addr reasons email_html subject tr =
      some (mkTask env addr reasons email_html subject tr) := by
    rw [convert_reasons_to_task, if_neg]
    simp [List.isEmpty_iff, hne]
  refine ⟨mkTask env addr reasons email_html subject tr, hconv, rfl,
    sortedSet_sorted reasons, sortedSet_nodup reasons,
    fun r => sortedSet_mem reasons r, ?_⟩
  intro reasons2 hsame
  have hne2 : reasons2 ≠ [] := by
    obtain ⟨x, hx⟩ := List.exists_mem_of_ne_nil reasons hne
    exact List.ne_nil_of_mem ((hsame x).mpr hx)
  have hset : sortedSet reasons2 = sortedSet reasons :=
    sortedSet_congr reasons2 reasons hsame
  have hmk : mkTask env addr reasons2 email_html subject tr =
      mkTask env addr reasons email_html subject tr := by
    rw [mkTask, mkTask, footerLines, footerLines, hset]
  rw [convert_reasons_to_task, if_neg]
  · rw [hmk]
  · simp [List.isEmpty_iff, hne2]

theorem C3_footer_dedup_sorted_witness :
    ∃ task,
      convert_reasons_to_task envW "a@example.com" ["b reason", "a reason"]
          "H" "S" none = some task ∧
      task.html = "H" ++ "\n\n" ++ String.intercalate "\n"
        (["<p>You are receiving this email because:</p>", "<ul>"]
          ++ (sortedSet ["b reason", "a reason"]).map
              (fun r => "<li>" ++ r ++ "</li>")
          ++ ["</ul>",
              "<p><a href=\"" ++ envW.site_url ++
                "settings\">Unsubscribe</a></p>"]) ∧
      (sortedSet ["b reason", "a reason"]).Sorted (· ≤ ·) ∧
      (sortedSet ["b reason", "a reason"]).Nodup ∧
      (∀ r, r ∈ sortedSet ["b reason", "a reason"] ↔
        r ∈ ["b reason", "a reason"]) ∧
      ∀ reasons2,
        (∀ r, r ∈ reasons2 ↔ r ∈ ["b reason", "a reason"]) →
        convert_reasons_to_task envW "a@example.com" reasons2 "H" "S" none =
          some task :=
  C3_footer_dedup_sorted envW "a@example.com" ["b reason", "a reason"]
    "H" "S" none (by simp)

/-- C4: `make_feature_changes_email` yields exactly one task per unique
recipient address, in strictly ascending address order, and the reason
list recorded for each address is the concatenation of all category
contributions (owners, editors, CC, devrel, watchers, component owners,
component subscribers, starrers, and matching subscription rules) for
that address. -/
theorem C4_tasks_per_recipient (env : Env) (fe : FeatureEntry)
    (is_update : Bool) (changes : List Change) :
    ∃ tasks,
      make_feature_changes_email env fe is_update changes = some tasks ∧
      (tasks.map EmailTask.to_addr).Pairwise (· < ·) ∧
      (∀ addr, addr ∈ tasks.map EmailTask.to_addr ↔
        contribsFor addr (categoryContribs env fe changes) ≠ []) ∧
      ∀ addr,
        lookupReasons (feature_changes_addr_reasons env fe changes) addr =
          if contribsFor addr (categoryContribs env fe changes) = [] then none
          else some (contribsFor addr (categoryContribs env fe changes)) := by
  obtain ⟨tasks, hmk, hmap⟩ := make_tasks_to_addr env fe is_update changes
  refine ⟨tasks, hmk, ?_, ?_, lookup_feature_changes env fe changes⟩
  · rw [hmap]
    exact sortByAddr_keys_lt _ (feature_table_keys_nodup env fe changes)
  · intro addr
    rw [hmap]
    have hpm : (addr ∈ (sortByAddr
          (feature_changes_addr_reasons env fe changes)).map Prod.fst) ↔
        addr ∈ (feature_changes_addr_reasons env fe changes).map Prod.fst :=
      ((sortByAddr_perm _).map Prod.fst).mem_iff
    rw [hpm]
    have hlk := lookup_feature_changes env fe changes addr
    constructor
    · intro hmem hc
      rw [hc, if_pos rfl] at hlk
      exact (lookup_none_iff _ addr).mp hlk hmem
    · intro hc
      by_contra hmem
      have hnone : lookupReasons (feature_changes_addr_reasons env fe changes)
          addr = none := (lookup_none_iff _ addr).mpr hmem
      rw [hlk, if_neg hc] at hnone
      exact Option.some_ne_none _ hnone

/-- C5: when the first shipping stage's milestones have a truthy
`android_first` and a falsy `webview_first`, the webview rule fires in
`apply_subscription_rules` exactly when the change list contains a
`shipped_android_milestone` change. -/
theorem C5_webview_rule (env : Env) (fe : FeatureEntry)
    (changes : List Change) (s : Stage) (rest : List Stage)
    (ms : MilestoneSet)
    (hstages : env.feature_stages fe.id
      ((env.stage_types_shipping fe.feature_type).getD 0) = s :: rest)
    (hms : s.milestones = some ms)
    (hand : truthy ms.android_first = true)
    (hweb : truthy ms.webview_first = false) :
    ((∃ c ∈ changes, c.prop_name = "shipped_android_milestone") →
      lookupReasons (apply_subscription_rules env fe changes)
        WEBVIEW_RULE_REASON = some WEBVIEW_RULE_ADDRS) ∧
    ((∀ c ∈ changes, c.prop_name ≠ "shipped_android_milestone") →
      lookupReasons (apply_subscription_rules env fe changes)
        WEBVIEW_RULE_REASON = none) := by
  have hIWAne : ¬ IWA_RULE_REASON = WEBVIEW_RULE_REASON := by decide
  have hrules : apply_subscription_rules env fe changes =
      (if fe.category = env.iwa
        then [(IWA_RULE_REASON, IWA_RULE_ADDRS)] else []) ++
      (if changes.any (fun c => c.prop_name = "shipped_android_milestone")
        then [(WEBVIEW_RULE_REASON, WEBVIEW_RULE_ADDRS)] else []) := by
    rw [apply_subscription_rules]
    simp only [hstages, hms, hand, hweb]
    rfl
  constructor
  · intro hchange
    have hany : changes.any
        (fun c => c.prop_name = "shipped_android_milestone") = true := by
      simp only [List.any_eq_true, decide_eq_true_eq]
      exact hchange
    rw [hrules, hany, if_pos rfl, lookup_append]
    by_cases hcat : fe.category = env.iwa
    · rw [if_pos hcat]
      simp [lookupReasons, hIWAne]
    · rw [if_neg hcat]
      simp [lookupReasons]
  · intro hnochange
    have hany : changes.any
        (fun c => c.prop_name = "shipped_android_milestone") = false := by
      simp only [List.any_eq_false, decide_eq_true_eq]
      exact hnochange
    rw [hrules, hany]
    by_cases hcat : fe.category = env.iwa
    · rw [if_pos hcat]
      simp [lookupReasons, hIWAne]
    · rw [if_neg hcat]
      simp [lookupReasons]

theorem C5_webview_rule_witness :
    lookupReasons
        (apply_subscription_rules envW feW
          [⟨"shipped_android_milestone", "None", "100"⟩])
        WEBVIEW_RULE_REASON = some WEBVIEW_RULE_ADDRS ∧
      lookupReasons (apply_subscription_rules envW feW [])
        WEBVIEW_RULE_REASON = none := by
  constructor
  · exact (C5_webview_rule envW feW
        [⟨"shipped_android_milestone", "None", "100"⟩]
        ⟨some ⟨some 100, none⟩, none, none⟩ [] ⟨some 100, none⟩
        rfl rfl rfl rfl).1
      ⟨⟨"shipped_android_milestone", "None", "100"⟩, by simp, rfl⟩
  · exact (C5_webview_rule envW feW []
        ⟨some ⟨some 100, none⟩, none, none⟩ [] ⟨some 100, none⟩
        rfl rfl rfl rfl).2 (by simp)

/-- C6: a feature whose category is the IWA category always gets the
fixed IWA reason mapped to the fixed IWA addresses from
`apply_subscription_rules`, and `make_feature_changes_email` therefore
emits tasks including each IWA address, carrying the IWA reason. -/
theorem C6_iwa_rule (env : Env) (fe : FeatureEntry) (changes : List Change)
    (is_update : Bool) (hcat : fe.category = env.iwa) :
    lookupReasons (apply_subscription_rules env fe changes) IWA_RULE_REASON =
      some IWA_RULE_ADDRS ∧
    ∃ tasks,
      make_feature_changes_email env fe is_update changes = some tasks ∧
      ∀ addr ∈ IWA_RULE_ADDRS,
        addr ∈ tasks.map EmailTask.to_addr ∧
        IWA_RULE_REASON ∈
          (lookupReasons (feature_changes_addr_reasons env fe changes)
            addr).getD [] := by
  have hmemrules : (IWA_RULE_REASON, IWA_RULE_ADDRS) ∈
      apply_subscription_rules env fe changes := by
    rw [apply_subscription_rules]
    simp only [hcat, if_pos rfl]
    exact List.mem_append.mpr (Or.inl (List.mem_singleton.mpr rfl))
  have hlkrules : lookupReasons (apply_subscription_rules env fe changes)
      IWA_RULE_REASON = some IWA_RULE_ADDRS := by
    rw [apply_subscription_rules]
    simp [lookupReasons, hcat]
  obtain ⟨tasks, hmk, hmap⟩ := make_tasks_to_addr env fe is_update changes
  refine ⟨hlkrules, tasks, hmk, ?_⟩
  intro addr haddr
  have hpair : (IWA_RULE_ADDRS, IWA_RULE_REASON) ∈
      categoryContribs env fe changes := by
    rw [categoryContribs]
    exact List.mem_append.mpr (Or.inr
      (List.mem_map.mpr ⟨(IWA_RULE_REASON, IWA_RULE_ADDRS), hmemrules, rfl⟩))
  have hcpos : 0 < IWA_RULE_ADDRS.count addr := List.count_pos_iff.mpr haddr
  have hreason : IWA_RULE_REASON ∈
      contribsFor addr (categoryContribs env fe changes) := by
    rw [contribsFor]
    refine List.mem_flatMap.mpr ⟨(IWA_RULE_ADDRS, IWA_RULE_REASON), hpair, ?_⟩
    exact List.mem_replicate.mpr ⟨Nat.pos_iff_ne_zero.mp hcpos, rfl⟩
  have hcne : contribsFor addr (categoryContribs env fe changes) ≠ [] :=
    List.ne_nil_of_mem hreason
  have hlk := lookup_feature_changes env fe changes addr
  rw [if_neg hcne] at hlk
  constructor
  · rw [hmap]
    have hpm : (addr ∈ (sortByAddr
          (feature_changes_addr_reasons env fe changes)).map Prod.fst) ↔
        addr ∈ (feature_changes_addr_reasons env fe changes).map Prod.fst :=
      ((sortByAddr_perm _).map Prod.fst).mem_iff
    rw [hpm]
    by_contra hmem
    have hnone : lookupReasons (feature_changes_addr_reasons env fe changes)
        addr = none := (lookup_none_iff _ addr).mpr hmem
    rw [hlk] at hnone
    exact Option.some_ne_none _ hnone
  · rw [hlk]
    simpa using hreason

theorem C6_iwa_rule_witness :
    lookupReasons (apply_subscription_rules envW feW []) IWA_RULE_REASON =
      some IWA_RULE_ADDRS ∧
    ∃ tasks,
      make_feature_changes_email envW feW false [] = some tasks ∧
      ∀ addr ∈ IWA_RULE_ADDRS,
        addr ∈ tasks.map EmailTask.to_addr ∧
        IWA_RULE_REASON ∈
          (lookupReasons (feature_changes_addr_reasons envW feW [])
            addr).getD [] :=
  C6_iwa_rule envW feW [] false rfl

/-- C7: `make_feature_changes_email` is deterministic: two runs with the
same external-world snapshot, feature, event kind and change list return
identical task lists (same tasks, same order).  All datastore reads are
part of the snapshot, so a run has no other inputs. -/
theorem C7_deterministic (env1 env2 : Env) (fe1 fe2 : FeatureEntry)
    (u1 u2 : Bool) (c1 c2 : List Change) (henv : env1 = env2)
    (hfe : fe1 = fe2) (hu : u1 = u2) (hc : c1 = c2) :
    make_feature_changes_email env1 fe1 u1 c1 =
      make_feature_changes_email env2 fe2 u2 c2 := by
  subst henv; subst hfe; subst hu; subst hc; rfl

theorem C7_deterministic_witness :
    make_feature_changes_email envW feW true [] =
      make_feature_changes_email envW feW true [] :=
  C7_deterministic envW envW feW feW true true [] [] rfl rfl rfl rfl

theorem feature_changes_components_congr (env : Env)
    (fe1 fe2 : FeatureEntry) (changes : List Change)
    (hid : fe1.id = fe2.id)
    (hft : fe1.feature_type = fe2.feature_type)
    (hcat : fe1.category = fe2.category)
    (howners : fe1.owner_emails = fe2.owner_emails)
    (heds : fe1.editor_emails = fe2.editor_emails)
    (hccs : fe1.cc_emails = fe2.cc_emails)
    (hdevrel : fe1.devrel_emails = fe2.devrel_emails)
    (hfold : ∀ t, fe1.blink_components.foldl (componentStep env) t =
      fe2.blink_components.foldl (componentStep env) t) :
    feature_changes_addr_reasons env fe1 changes =
      feature_changes_addr_reasons env fe2 changes := by
  rw [feature_changes_addr_reasons, feature_changes_addr_reasons,
    add_core_receivers, add_core_receivers,
    apply_subscription_rules, apply_subscription_rules]
  rw [hid, hft, hcat, howners, heds, hccs, hdevrel, hfold]

/-- C8: a Blink component name on the feature with no corresponding
`BlinkComponent` entity is skipped: the recipient table is the same as
if the name were absent (so that component contributes no owner or
subscriber recipients, while every other component's contributions are
still accumulated), and `make_feature_changes_email` still returns a
task list rather than an error. -/
theorem C8_missing_component (env : Env) (fe : FeatureEntry)
    (is_update : Bool) (changes : List Change) (name : String)
    (_listed : name ∈ fe.blink_components)
    (hmiss : env.componentByName name = none) :
    feature_changes_addr_reasons env fe changes =
      feature_changes_addr_reasons env
        { fe with blink_components :=
            fe.blink_components.filter (fun n => n ≠ name) } changes ∧
    (make_feature_changes_email env fe is_update changes).isSome := by
  constructor
  · exact feature_changes_components_congr env fe _ changes rfl rfl rfl rfl
      rfl rfl rfl (fun t => componentFold_filter env name hmiss
        fe.blink_components t)
  · rw [make_feature_changes_email_eq]
    rfl

theorem C8_missing_component_witness :
    feature_changes_addr_reasons envW feW [] =
      feature_changes_addr_reasons envW
        { feW with blink_components :=
            feW.blink_components.filter (fun n => n ≠ "Gone") } [] ∧
    (make_feature_changes_email envW feW false []).isSome :=
  C8_missing_component envW feW false [] "Gone" (by decide) (by decide)

/-- C9: `post_comment_to_mailing_list` raises the ValueError
"No matching Stage entity found for given Gate ID." (and builds no email
task) whenever the gate id has no Gate entity, or the gate's `stage_id`
has no Stage entity. -/
theorem C9_missing_stage_fatal (env : Env) (feature : FeatureEntry)
    (gate_id afId : Int) (author_addr comment_content : String)
    (h : env.gateById gate_id = none ∨
      ∃ g, env.gateById gate_id = some g ∧ env.stageById g.stage_id = none) :
    post_comment_to_mailing_list env feature gate_id afId author_addr
        comment_content =
      Except.error "No matching Stage entity found for given Gate ID." := by
  rw [post_comment_to_mailing_list]
  rcases h with h | ⟨g, hg, hs⟩
  · simp [h]
  · simp [hg, hs]

theorem C9_missing_stage_fatal_witness :
    post_comment_to_mailing_list envW feW 5 1 "alice@example.com" "hello" =
      Except.error "No matching Stage entity found for given Gate ID." :=
  C9_missing_stage_fatal envW feW 5 1 "alice@example.com" "hello"
    (Or.inl rfl)

/-- C10: `FeatureChangeHandler.process_post_data` sends nothing for an
update with an empty or absent change list, and nothing when the feature
entity does not exist; a creation event (`is_update` false) with an
existing feature always calls `send_emails` with the built task list. -/
theorem C10_change_handler_guard (env : Env) (fid : Int) :
    process_post_data env fid true none = some none ∧
    process_post_data env fid true (some []) = some none ∧
    (env.featureById fid = none →
      ∀ (is_update : Bool) (cp : Option (List Change)),
        process_post_data env fid is_update cp = some none) ∧
    ∀ fe, env.featureById fid = some fe → ∀ (cp : Option (List Change)),
      ∃ tasks, process_post_data env fid false cp = some (some tasks) := by
  refine ⟨?_, ?_, ?_, ?_⟩
  · cases h : env.featureById fid with
    | none => simp [process_post_data, h]
    | some fe => simp [process_post_data, h]
  · cases h : env.featureById fid with
    | none => simp [process_post_data, h]
    | some fe => simp [process_post_data, h]
  · intro h is_update cp
    simp [process_post_data, h]
  · intro fe h cp
    obtain ⟨tasks, hmk, -⟩ := make_tasks_to_addr env fe false (cp.getD [])
    refine ⟨tasks, ?_⟩
    simp [process_post_data, h, hmk]

theorem C10_change_handler_guard_witness :
    process_post_data envW 1 true none = some none ∧
    ∃ tasks, process_post_data envW 1 false none = some (some tasks) :=
  ⟨(C10_change_handler_guard envW 1).1,
    (C10_change_handler_guard envW 1).2.2.2 feW rfl none⟩
